import Mathlib

/-!
Verification of the MediMate medication-tracking application (src/app.py).

The application is a Flask front end over a SQLite database with two tables:

  meds(id PK autoincrement, name, dose, time_of_day, notes, created_at)
  taken_logs(id PK autoincrement, med_id REFERENCES meds(id), taken_at)

We embed the database state as two Lean lists (rows in insertion order,
autoincrement counters carried explicitly) and translate each request
handler into a pure function on that state.  `request.form.get` /
`request.args.get` return `Option String` (None when the field is absent);
the Python `or ""` becomes `Option.getD ""`; the Python `str.strip()` becomes
`pyStrip` below; the wall clock (`now_iso()` and the SQLite local date)
is passed in as an explicit parameter.
-/

/-- The Python `str.strip()`: remove whitespace from both ends of a string.
Modeled with `Char.isWhitespace` as the whitespace predicate. -/
def pyStrip (s : String) : String :=
  ⟨(s.data.dropWhile Char.isWhitespace).rdropWhile Char.isWhitespace⟩

/-- The Python `str.lower()`: lowercase every character.  Modeled with
`Char.toLower` as the per-character lowercasing. -/
def pyLower (s : String) : String :=
  ⟨s.data.map Char.toLower⟩

/-- A row of the `meds` table.  The stored column is `time_of_day`; every
query in app.py aliases it as `schedule` (`m.time_of_day AS schedule`), so
we use the externally visible name `schedule` for that field throughout. -/
structure Medication where
  id : Nat
  name : String
  dose : String
  schedule : String
  notes : String
  created_at : String
deriving Repr, DecidableEq

/-- A row of the `taken_logs` table. -/
structure TakenEvent where
  id : Nat
  med_id : Nat
  taken_at : String
deriving Repr, DecidableEq

/-- The database state: the two tables in row order, plus the autoincrement
counters for the two primary keys. -/
structure Store where
  meds : List Medication
  logs : List TakenEvent
  nextMedId : Nat
  nextLogId : Nat
deriving Repr, DecidableEq

/-- `validate_med_form` from app.py, verbatim: the four checks in order,
first failure wins; callers pass in already-stripped strings, so the Python
truthiness test `not name` is the emptiness test. -/
def validate_med_form (name dose schedule : String) : Bool × String :=
  if name = "" ∨ dose = "" ∨ schedule = "" then
    (false, "Please fill in Name, Dose, and Schedule.")
  else if name.length > 60 then
    (false, "Medication name is too long (max 60 chars).")
  else if dose.length > 60 then
    (false, "Dose is too long (max 60 chars).")
  else if schedule.length > 40 then
    (false, "Schedule is too long (max 40 chars).")
  else
    (true, "")

/-- The four form fields of the add/edit pages, as they arrive in
`request.form` (`none` when a field is missing from the POST body). -/
structure MedForm where
  name : Option String
  dose : Option String
  schedule : Option String
  notes : Option String
deriving Repr, DecidableEq

/-- `(request.form.get(f) or "").strip()` for one field. -/
def formField (o : Option String) : String :=
  pyStrip (o.getD "")

/-- Outcome of the add handler. -/
inductive AddResult where
  | validationError (msg : String)
  | success (newId : Nat)
deriving Repr, DecidableEq

/-- The POST branch of `add_med` from app.py: strip the four fields,
validate; on failure re-render (no INSERT); on success INSERT the row with
`created_at = now_iso()` and the next autoincrement id. -/
def add_med (st : Store) (form : MedForm) (now : String) : Store × AddResult :=
  match validate_med_form (formField form.name) (formField form.dose) (formField form.schedule) with
  | (false, msg) => (st, AddResult.validationError msg)
  | (true, _) =>
    ({ st with
        meds := st.meds ++ [⟨st.nextMedId, formField form.name, formField form.dose,
          formField form.schedule, formField form.notes, now⟩],
        nextMedId := st.nextMedId + 1 },
      AddResult.success st.nextMedId)

/-- Outcome of the edit handler. -/
inductive EditResult where
  | notFound
  | validationError (msg : String)
  | success
deriving Repr, DecidableEq

/-- The SET clause of the UPDATE in `edit_med`: overwrite the four mutable
columns with the stripped form fields; `id` and `created_at` are not in
the SET list. -/
def applyForm (form : MedForm) (m : Medication) : Medication :=
  { m with
      name := formField form.name
      dose := formField form.dose
      schedule := formField form.schedule
      notes := formField form.notes }

/-- The POST branch of `edit_med` from app.py: SELECT the row by id and
`abort(404)` when absent — before the form is even read; otherwise strip
and validate the fields; on failure re-render (no UPDATE); on success
UPDATE the four mutable columns of every row with that id. -/
def edit_med (st : Store) (med_id : Nat) (form : MedForm) : Store × EditResult :=
  match st.meds.find? (fun m => m.id = med_id) with
  | none => (st, EditResult.notFound)
  | some _ =>
    match validate_med_form (formField form.name) (formField form.dose)
        (formField form.schedule) with
    | (false, msg) => (st, EditResult.validationError msg)
    | (true, _) =>
      ({ st with
          meds := st.meds.map fun m => if m.id = med_id then applyForm form m else m },
        EditResult.success)

/-- Outcome of the mark-taken handler. -/
inductive TakeResult where
  | notFound
  | success
deriving Repr, DecidableEq

/-- `mark_taken` from app.py: SELECT the medication by id; when absent,
flash an error and write nothing; when present, INSERT one `taken_logs`
row with `taken_at = now_iso()`. -/
def mark_taken (st : Store) (med_id : Nat) (now : String) : Store × TakeResult :=
  match st.meds.find? (fun m => m.id = med_id) with
  | none => (st, TakeResult.notFound)
  | some _ =>
    ({ st with
        logs := st.logs ++ [⟨st.nextLogId, med_id, now⟩],
        nextLogId := st.nextLogId + 1 },
      TakeResult.success)

/-- `delete_med` from app.py: DELETE the logs referencing the id, DELETE
the medication row, then unconditionally flash the success message. -/
def delete_med (st : Store) (med_id : Nat) : Store × String :=
  ({ st with
      logs := st.logs.filter fun e => e.med_id ≠ med_id,
      meds := st.meds.filter fun m => m.id ≠ med_id },
    "Medication deleted.")

/-- SQLite BINARY collation, strict: TEXT values compare bytewise as
UTF-8, which coincides with lexicographic codepoint order, i.e. the
lexicographic order on the character lists. -/
def textLt (a b : String) : Prop :=
  a.data < b.data

/-- SQLite BINARY collation, non-strict. -/
def textLe (a b : String) : Prop :=
  a.data ≤ b.data

instance : DecidableRel textLt :=
  fun a b => inferInstanceAs (Decidable (a.data < b.data))

instance : DecidableRel textLe :=
  fun a b => inferInstanceAs (Decidable (a.data ≤ b.data))

/-- SQL `MAX` over the TEXT values of a list of rows; `none` when there
are no rows (SQL `MAX` of the empty set is NULL). -/
def maxText : List String → Option String
  | [] => none
  | t :: ts =>
    match maxText ts with
    | none => some t
    | some u => some (if textLe t u then u else t)

/-- The correlated subquery of the index page:
`SELECT MAX(t.taken_at) FROM taken_logs t WHERE t.med_id = m.id`. -/
def last_taken_of (st : Store) (med_id : Nat) : Option String :=
  maxText ((st.logs.filter fun e => e.med_id = med_id).map fun e => e.taken_at)

/-- The `ORDER BY m.time_of_day ASC, m.name ASC` ordering of the index
query: schedule ascending, ties broken by name ascending (BINARY
collation on both columns). -/
def medOrd (a b : Medication) : Prop :=
  textLt a.schedule b.schedule ∨ (a.schedule = b.schedule ∧ textLe a.name b.name)

instance : DecidableRel medOrd :=
  fun a b =>
    inferInstanceAs
      (Decidable (textLt a.schedule b.schedule ∨ (a.schedule = b.schedule ∧ textLe a.name b.name)))

/-- `index` from app.py: all medications, each annotated with the derived
`last_taken` column, ordered by schedule then name. -/
def index (st : Store) : List (Medication × Option String) :=
  (st.meds.insertionSort medOrd).map fun m => (m, last_taken_of st m.id)

/-- SQLite `date(s)` for the timestamps this app stores: `now_iso()`
produces ISO-8601 `YYYY-MM-DDTHH:MM:SS`, of which the date part is the
first 10 characters. -/
def dateOf (s : String) : String := s.take 10

/-- The `JOIN meds m ON m.id = t.med_id` of the history queries: every
(log row, med row) pair whose ids match, in row order. -/
def joinLogs (st : Store) : List (TakenEvent × Medication) :=
  st.logs.flatMap fun e =>
    (st.meds.filter fun m => m.id = e.med_id).map fun m => (e, m)

/-- The `ORDER BY t.taken_at DESC` ordering of the history queries:
`taken_at` descending. -/
def logOrd (a b : TakenEvent × Medication) : Prop :=
  textLe b.1.taken_at a.1.taken_at

instance : DecidableRel logOrd :=
  fun a b => inferInstanceAs (Decidable (textLe b.1.taken_at a.1.taken_at))

/-- The `day == "today"` branch of `history`: joined rows restricted to
the current local calendar date, newest first, LIMIT 250. -/
def historyToday (st : Store) (today : String) : List (TakenEvent × Medication) :=
  (((joinLogs st).filter fun p => dateOf p.1.taken_at = today).insertionSort logOrd).take 250

/-- The else branch of `history`: all joined rows, newest first, LIMIT 250. -/
def historyAll (st : Store) : List (TakenEvent × Medication) :=
  ((joinLogs st).insertionSort logOrd).take 250

/-- `history` from app.py: normalize the `day` query parameter with
`(request.args.get("day") or "").strip().lower()` and dispatch on whether
it equals "today".  `today` is the value of the SQLite local-date call. -/
def history (st : Store) (rawDay : Option String) (today : String) :
    List (TakenEvent × Medication) :=
  let day := pyLower (pyStrip (rawDay.getD ""))
  if day = "today" then historyToday st today
  else historyAll st

/-! ### Order facts for the two ORDER BY relations -/

theorem textLe_refl (a : String) : textLe a a := le_refl a.data

theorem textLe_trans {a b c : String} (h1 : textLe a b) (h2 : textLe b c) : textLe a c :=
  le_trans h1 h2

theorem textLe_total (a b : String) : textLe a b ∨ textLe b a := le_total a.data b.data

theorem textLe_antisymm {a b : String} (h1 : textLe a b) (h2 : textLe b a) : a = b :=
  String.ext (le_antisymm h1 h2)

instance : IsTotal Medication medOrd := by
  constructor
  intro a b
  simp only [medOrd, textLt, textLe]
  rcases lt_trichotomy a.schedule.data b.schedule.data with h | h | h
  · exact Or.inl (Or.inl h)
  · have hs : a.schedule = b.schedule := String.ext h
    rcases le_total a.name.data b.name.data with hn | hn
    · exact Or.inl (Or.inr ⟨hs, hn⟩)
    · exact Or.inr (Or.inr ⟨hs.symm, hn⟩)
  · exact Or.inr (Or.inl h)

instance : IsTrans Medication medOrd := by
  constructor
  intro a b c hab hbc
  simp only [medOrd, textLt, textLe] at *
  rcases hab with h1 | ⟨e1, n1⟩ <;> rcases hbc with h2 | ⟨e2, n2⟩
  · exact Or.inl (lt_trans h1 h2)
  · exact Or.inl (e2 ▸ h1)
  · exact Or.inl (e1 ▸ h2)
  · exact Or.inr ⟨e1.trans e2, le_trans n1 n2⟩

instance : IsTotal (TakenEvent × Medication) logOrd := by
  constructor
  intro a b
  simp only [logOrd, textLe]
  exact (le_total b.1.taken_at.data a.1.taken_at.data)

instance : IsTrans (TakenEvent × Medication) logOrd := by
  constructor
  intro a b c hab hbc
  simp only [logOrd, textLe] at *
  exact le_trans hbc hab

/-! ### Facts about Python strip -/

theorem dropWhile_eq_cons_head_false {α : Type} {p : α → Bool} {l t : List α} {a : α}
    (h : l.dropWhile p = a :: t) : p a = false := by
  induction l with
  | nil => simp at h
  | cons x xs ih =>
    rw [List.dropWhile_cons] at h
    by_cases hx : p x
    · rw [if_pos hx] at h
      exact ih h
    · rw [if_neg hx] at h
      cases h
      simpa using hx

theorem dropWhile_rdropWhile_dropWhile {α : Type} (p : α → Bool) (l : List α) :
    ((l.dropWhile p).rdropWhile p).dropWhile p = (l.dropWhile p).rdropWhile p := by
  cases hm : (l.dropWhile p).rdropWhile p with
  | nil => simp
  | cons a t =>
    have hpre : (l.dropWhile p).rdropWhile p <+: l.dropWhile p :=
      List.rdropWhile_prefix p (l.dropWhile p)
    rw [hm] at hpre
    obtain ⟨r, hr⟩ := hpre
    have hd : l.dropWhile p = a :: (t ++ r) := by
      rw [← hr]; simp
    have hhead : p a = false := dropWhile_eq_cons_head_false hd
    simp [List.dropWhile_cons, hhead]

theorem pyStrip_idem (s : String) : pyStrip (pyStrip s) = pyStrip s := by
  have h := dropWhile_rdropWhile_dropWhile Char.isWhitespace s.data
  show (⟨(((s.data.dropWhile Char.isWhitespace).rdropWhile Char.isWhitespace).dropWhile
      Char.isWhitespace).rdropWhile Char.isWhitespace⟩ : String) =
    ⟨(s.data.dropWhile Char.isWhitespace).rdropWhile Char.isWhitespace⟩
  rw [h, List.rdropWhile_idempotent]

theorem pyStrip_ne_empty_of_idem {s : String} (h : pyStrip s ≠ "") :
    pyStrip (pyStrip s) ≠ "" := by
  rw [pyStrip_idem]; exact h

/-! ### Facts about maxText -/

theorem maxText_eq_none_iff {l : List String} : maxText l = none ↔ l = [] := by
  cases l with
  | nil => simp [maxText]
  | cons t ts =>
    simp only [maxText]
    cases maxText ts <;> simp

theorem maxText_mem {l : List String} {t : String} (h : maxText l = some t) : t ∈ l := by
  induction l generalizing t with
  | nil => simp [maxText] at h
  | cons x xs ih =>
    simp only [maxText] at h
    cases hxs : maxText xs with
    | none => rw [hxs] at h; simp at h; simp [h]
    | some u =>
      rw [hxs] at h
      simp only [Option.some.injEq] at h
      by_cases hle : textLe x u
      · rw [if_pos hle] at h
        exact List.mem_cons_of_mem x (ih (h ▸ hxs))
      · rw [if_neg hle] at h
        simp [h]

theorem maxText_ge {l : List String} {t u : String} (h : maxText l = some t) (hu : u ∈ l) :
    textLe u t := by
  induction l generalizing t with
  | nil => simp at hu
  | cons x xs ih =>
    simp only [maxText] at h
    cases hxs : maxText xs with
    | none =>
      rw [hxs] at h
      have hx : x = t := by simpa using h
      have hnil : xs = [] := maxText_eq_none_iff.mp hxs
      subst hnil
      have hux : u = x := by simpa using hu
      rw [hux, hx]
      exact textLe_refl t
    | some v =>
      rw [hxs] at h
      have ht : (if textLe x v then v else x) = t := by simpa using h
      rcases List.mem_cons.mp hu with h1 | h1
      · by_cases hle : textLe x v
        · rw [if_pos hle] at ht
          rw [h1]
          exact ht ▸ hle
        · rw [if_neg hle] at ht
          rw [h1, ht]
          exact textLe_refl t
      · have huv : textLe u v := ih hxs h1
        by_cases hle : textLe x v
        · rw [if_pos hle] at ht
          exact ht ▸ huv
        · rw [if_neg hle] at ht
          have hvx : textLe v x := le_of_not_le hle
          exact ht ▸ textLe_trans huv hvx

theorem maxText_append_singleton {l : List String} {a : String}
    (h : ∀ x ∈ l, textLe x a) : maxText (l ++ [a]) = some a := by
  induction l with
  | nil => simp [maxText]
  | cons t ts ih =>
    have hts : maxText (ts ++ [a]) = some a := ih fun x hx => h x (List.mem_cons_of_mem t hx)
    rw [List.cons_append]
    simp only [maxText]
    rw [hts]
    show some (if textLe t a then a else t) = some a
    rw [if_pos (h t (List.mem_cons_self t ts))]

/-! ### Shared facts about the operations -/

/-- Referential integrity: every log row references an existing medication
row.  It is established by the existence check in `mark_taken` and maintained
by the cascade in `delete_med`; states reachable through the handlers satisfy it. -/
def WFStore (st : Store) : Prop :=
  ∀ e ∈ st.logs, ∃ m ∈ st.meds, m.id = e.med_id

instance (st : Store) : Decidable (WFStore st) :=
  inferInstanceAs (Decidable (∀ e ∈ st.logs, ∃ m ∈ st.meds, m.id = e.med_id))

theorem find?_id_eq_none {st : Store} {med_id : Nat}
    (habsent : ∀ m ∈ st.meds, m.id ≠ med_id) :
    st.meds.find? (fun m => m.id = med_id) = none := by
  rw [List.find?_eq_none]
  intro m hm
  simpa using habsent m hm

theorem add_med_fail_unchanged {st : Store} {form : MedForm} {now : String} {msg : String}
    (h : (add_med st form now).2 = AddResult.validationError msg) :
    (add_med st form now).1 = st := by
  unfold add_med at h ⊢
  rcases hv : validate_med_form (formField form.name) (formField form.dose)
      (formField form.schedule) with ⟨b1, m1⟩
  cases b1
  · rfl
  · rw [hv] at h
    exact AddResult.noConfusion h

theorem edit_med_fail_unchanged {st : Store} {med_id : Nat} {form : MedForm} {msg : String}
    (h : (edit_med st med_id form).2 = EditResult.validationError msg) :
    (edit_med st med_id form).1 = st := by
  unfold edit_med at h ⊢
  cases hf : st.meds.find? (fun m => m.id = med_id) with
  | none => rfl
  | some val =>
    rcases hv : validate_med_form (formField form.name) (formField form.dose)
        (formField form.schedule) with ⟨b1, m1⟩
    cases b1
    · rfl
    · rw [hf, hv] at h
      exact EditResult.noConfusion h

theorem mem_joinLogs {st : Store} {p : TakenEvent × Medication} :
    p ∈ joinLogs st ↔ p.1 ∈ st.logs ∧ p.2 ∈ st.meds ∧ p.2.id = p.1.med_id := by
  constructor
  · intro hp
    obtain ⟨e, he, hp2⟩ := List.mem_flatMap.mp hp
    obtain ⟨m, hm, hpe⟩ := List.mem_map.mp hp2
    obtain ⟨hmm, hid⟩ := List.mem_filter.mp hm
    cases hpe
    exact ⟨he, hmm, by simpa using hid⟩
  · intro ⟨h1, h2, h3⟩
    refine List.mem_flatMap.mpr ⟨p.1, h1, ?_⟩
    refine List.mem_map.mpr ⟨p.2, List.mem_filter.mpr ⟨h2, by simpa using h3⟩, rfl⟩

theorem mem_historyAll {st : Store} {p : TakenEvent × Medication}
    (hp : p ∈ historyAll st) : p ∈ joinLogs st := by
  unfold historyAll at hp
  exact (List.mem_insertionSort logOrd).mp (List.mem_of_mem_take hp)

theorem mem_historyToday {st : Store} {today : String} {p : TakenEvent × Medication}
    (hp : p ∈ historyToday st today) :
    p ∈ joinLogs st ∧ dateOf p.1.taken_at = today := by
  unfold historyToday at hp
  have h1 := (List.mem_insertionSort logOrd).mp (List.mem_of_mem_take hp)
  have h2 := List.mem_filter.mp h1
  exact ⟨h2.1, by simpa using h2.2⟩

/-- Claim C7: delete on a nonexistent id does not raise, reports success
and leaves both the medication set and the event log unchanged (under
referential integrity, a nonexistent medication has no log rows to
cascade onto). -/
theorem C7_delete_nonexistent_noop (st : Store) (med_id : Nat)
    (hwf : WFStore st) (habsent : ∀ m ∈ st.meds, m.id ≠ med_id) :
    delete_med st med_id = (st, "Medication deleted.") := by
  have hm : (st.meds.filter fun m => m.id ≠ med_id) = st.meds :=
    List.filter_eq_self.mpr fun m hm => by simpa using habsent m hm
  have hl : (st.logs.filter fun e => e.med_id ≠ med_id) = st.logs :=
    List.filter_eq_self.mpr fun e he => by
      obtain ⟨m, hmem, hid⟩ := hwf e he
      simpa using hid ▸ habsent m hmem
  unfold delete_med
  rw [hm, hl]

theorem C7_delete_nonexistent_noop_witness :
    delete_med ⟨[⟨1, "Aspirin", "100mg", "Morning", "", "2026-01-01T08:00:00"⟩],
        [⟨1, 1, "2026-01-01T09:00:00"⟩], 2, 2⟩ 7 =
      (⟨[⟨1, "Aspirin", "100mg", "Morning", "", "2026-01-01T08:00:00"⟩],
        [⟨1, 1, "2026-01-01T09:00:00"⟩], 2, 2⟩, "Medication deleted.") :=
  C7_delete_nonexistent_noop _ 7 (by decide) (by decide)

/-- Claim C9: an edit request whose id names no medication fails with
not-found before validation runs: for every form — including forms whose
fields are empty or over-length — the result is `notFound` and the store
is unchanged. -/
theorem C9_edit_notfound_before_validation (st : Store) (med_id : Nat) (form : MedForm)
    (habsent : ∀ m ∈ st.meds, m.id ≠ med_id) :
    edit_med st med_id form = (st, EditResult.notFound) := by
  unfold edit_med
  rw [find?_id_eq_none habsent]

theorem C9_edit_notfound_before_validation_witness :
    edit_med ⟨[⟨1, "Aspirin", "100mg", "Morning", "", "2026-01-01T08:00:00"⟩], [], 2, 1⟩ 9
        ⟨some "", some "", some "", none⟩ =
      (⟨[⟨1, "Aspirin", "100mg", "Morning", "", "2026-01-01T08:00:00"⟩], [], 2, 1⟩,
        EditResult.notFound) :=
  C9_edit_notfound_before_validation _ 9 _ (by decide)

/-- Claim C2: delete(id) removes the medication and all of its events —
membership in either table after the delete is membership before minus
the deleted id — and a subsequent listRecent(all) contains none of them,
neither as the event column nor as the joined medication columns. -/
theorem C2_delete_cascades (st : Store) (med_id : Nat) :
    (∀ m : Medication, m ∈ (delete_med st med_id).1.meds ↔ m ∈ st.meds ∧ m.id ≠ med_id) ∧
    (∀ e : TakenEvent, e ∈ (delete_med st med_id).1.logs ↔ e ∈ st.logs ∧ e.med_id ≠ med_id) ∧
    (∀ today : String, ∀ p ∈ history (delete_med st med_id).1 (some "all") today,
      p.1.med_id ≠ med_id ∧ p.2.id ≠ med_id) := by
  refine ⟨?_, ?_, ?_⟩
  · intro m
    simp [delete_med, List.mem_filter]
  · intro e
    simp [delete_med, List.mem_filter]
  · intro today p hp
    have hall : history (delete_med st med_id).1 (some "all") today =
        historyAll (delete_med st med_id).1 := by
      unfold history
      rw [if_neg (by decide)]
    rw [hall] at hp
    have hj := mem_joinLogs.mp (mem_historyAll hp)
    obtain ⟨he, hm, hid⟩ := hj
    have h1 : p.1 ∈ st.logs ∧ p.1.med_id ≠ med_id := by
      simpa [delete_med, List.mem_filter] using he
    have h2 : p.2 ∈ st.meds ∧ p.2.id ≠ med_id := by
      simpa [delete_med, List.mem_filter] using hm
    exact ⟨h1.2, h2.2⟩

theorem C2_delete_cascades_witness :
    ((⟨1, 1, "2026-01-01T09:00:00"⟩ : TakenEvent) ∈
        (delete_med ⟨[⟨1, "Aspirin", "100mg", "Morning", "", "2026-01-01T08:00:00"⟩],
          [⟨1, 1, "2026-01-01T09:00:00"⟩, ⟨2, 1, "2026-01-02T09:00:00"⟩], 2, 3⟩ 1).1.logs ↔
      (⟨1, 1, "2026-01-01T09:00:00"⟩ : TakenEvent) ∈
        ([⟨1, 1, "2026-01-01T09:00:00"⟩, ⟨2, 1, "2026-01-02T09:00:00"⟩] : List TakenEvent) ∧
        (1 : Nat) ≠ 1) :=
  (C2_delete_cascades ⟨[⟨1, "Aspirin", "100mg", "Morning", "", "2026-01-01T08:00:00"⟩],
    [⟨1, 1, "2026-01-01T09:00:00"⟩, ⟨2, 1, "2026-01-02T09:00:00"⟩], 2, 3⟩ 1).2.1
    ⟨1, 1, "2026-01-01T09:00:00"⟩

theorem find?_id_eq_some {st : Store} {med_id : Nat} {m : Medication}
    (hm : m ∈ st.meds) (hid : m.id = med_id) :
    ∃ m', st.meds.find? (fun m => m.id = med_id) = some m' := by
  rcases hf : st.meds.find? (fun m => m.id = med_id) with _ | m'
  · rw [List.find?_eq_none] at hf
    exact absurd (by simpa using hid) (hf m hm)
  · exact ⟨m', hf⟩

theorem maxText_filter_append_new {logs : List TakenEvent} {i lid : Nat} {now : String}
    (hmono : ∀ e ∈ logs, e.med_id = i → textLe e.taken_at now) :
    maxText (((logs ++ [(⟨lid, i, now⟩ : TakenEvent)]).filter fun e => e.med_id = i).map
      fun e => e.taken_at) = some now := by
  rw [List.filter_append]
  have hnew : (([⟨lid, i, now⟩] : List TakenEvent).filter fun e => e.med_id = i) =
      [⟨lid, i, now⟩] := by simp
  rw [hnew, List.map_append]
  refine maxText_append_singleton ?_
  intro x hx
  obtain ⟨e, he, hex⟩ := List.mem_map.mp hx
  have hef := List.mem_filter.mp he
  exact hex ▸ hmono e hef.1 (by simpa using hef.2)

/-- Claim C3: recordTaken on a nonexistent medication fails with not-found
and writes nothing; on an existing medication it appends exactly one event
stamped with the current time, and — provided the clock has not run
backwards past the existing events of that medication — listAll afterwards
reports for that medication a last_taken equal to the new event timestamp. -/
theorem C3_mark_taken (st : Store) (med_id : Nat) (now : String) :
    ((∀ m ∈ st.meds, m.id ≠ med_id) → mark_taken st med_id now = (st, TakeResult.notFound)) ∧
    ((∃ m ∈ st.meds, m.id = med_id) →
      (mark_taken st med_id now).2 = TakeResult.success ∧
      (mark_taken st med_id now).1.logs = st.logs ++ [⟨st.nextLogId, med_id, now⟩] ∧
      (mark_taken st med_id now).1.meds = st.meds ∧
      ((∀ e ∈ st.logs, e.med_id = med_id → textLe e.taken_at now) →
        ∀ p ∈ index (mark_taken st med_id now).1, p.1.id = med_id → p.2 = some now)) := by
  constructor
  · intro habsent
    unfold mark_taken
    rw [find?_id_eq_none habsent]
  · rintro ⟨m, hm, hid⟩
    obtain ⟨m', hf⟩ := find?_id_eq_some hm hid
    have hdef : mark_taken st med_id now =
        ({ st with
            logs := st.logs ++ [⟨st.nextLogId, med_id, now⟩],
            nextLogId := st.nextLogId + 1 }, TakeResult.success) := by
      unfold mark_taken
      rw [hf]
    rw [hdef]
    refine ⟨rfl, rfl, rfl, ?_⟩
    intro hmono p hp hpid
    unfold index at hp
    obtain ⟨q, hq, hpq⟩ := List.mem_map.mp hp
    cases hpq
    have hqid : q.id = med_id := hpid
    show last_taken_of
      { st with
          logs := st.logs ++ [⟨st.nextLogId, med_id, now⟩],
          nextLogId := st.nextLogId + 1 } q.id = some now
    unfold last_taken_of
    rw [hqid]
    exact maxText_filter_append_new hmono

theorem C3_mark_taken_witness :
    mark_taken ⟨[⟨1, "Aspirin", "100mg", "Morning", "", "2026-01-01T08:00:00"⟩], [], 2, 1⟩
        3 "2026-01-02T09:00:00" =
      (⟨[⟨1, "Aspirin", "100mg", "Morning", "", "2026-01-01T08:00:00"⟩], [], 2, 1⟩,
        TakeResult.notFound) ∧
    ∀ p ∈ index (mark_taken
        ⟨[⟨1, "Aspirin", "100mg", "Morning", "", "2026-01-01T08:00:00"⟩],
          [⟨1, 1, "2026-01-01T09:00:00"⟩], 2, 2⟩ 1 "2026-01-02T09:00:00").1,
      p.1.id = 1 → p.2 = some "2026-01-02T09:00:00" :=
  ⟨(C3_mark_taken ⟨[⟨1, "Aspirin", "100mg", "Morning", "", "2026-01-01T08:00:00"⟩], [], 2, 1⟩
      3 "2026-01-02T09:00:00").1 (by decide),
   ((C3_mark_taken ⟨[⟨1, "Aspirin", "100mg", "Morning", "", "2026-01-01T08:00:00"⟩],
      [⟨1, 1, "2026-01-01T09:00:00"⟩], 2, 2⟩ 1 "2026-01-02T09:00:00").2
      ⟨⟨1, "Aspirin", "100mg", "Morning", "", "2026-01-01T08:00:00"⟩, by decide, rfl⟩).2.2.2
      (by decide)⟩

/-- Claim C6: a successful update leaves the log, the counters and every
other medication untouched, and on the targeted medication changes exactly
the four mutable fields to the submitted (stripped) values, keeping `id`
and `created_at`. -/
theorem C6_update_frame (st : Store) (med_id : Nat) (form : MedForm)
    (hs : (edit_med st med_id form).2 = EditResult.success) :
    (edit_med st med_id form).1.logs = st.logs ∧
    (edit_med st med_id form).1.nextMedId = st.nextMedId ∧
    (edit_med st med_id form).1.nextLogId = st.nextLogId ∧
    List.Forall₂ (fun m m' : Medication =>
        (m.id ≠ med_id → m' = m) ∧
        (m.id = med_id →
          m'.id = m.id ∧ m'.created_at = m.created_at ∧
          m'.name = formField form.name ∧ m'.dose = formField form.dose ∧
          m'.schedule = formField form.schedule ∧ m'.notes = formField form.notes))
      st.meds (edit_med st med_id form).1.meds := by
  unfold edit_med at hs ⊢
  cases hf : st.meds.find? (fun m => m.id = med_id) with
  | none =>
    rw [hf] at hs
    exact EditResult.noConfusion hs
  | some val =>
    rcases hv : validate_med_form (formField form.name) (formField form.dose)
        (formField form.schedule) with ⟨b1, m1⟩
    cases b1
    · rw [hf, hv] at hs
      exact EditResult.noConfusion hs
    · refine ⟨rfl, rfl, rfl, ?_⟩
      show List.Forall₂ _ st.meds
        (st.meds.map fun m => if m.id = med_id then applyForm form m else m)
      rw [List.forall₂_map_right_iff]
      rw [List.forall₂_same]
      intro m hm
      by_cases hid : m.id = med_id
      · constructor
        · intro h
          exact absurd hid h
        · intro _
          rw [if_pos hid]
          exact ⟨rfl, rfl, rfl, rfl, rfl, rfl⟩
      · constructor
        · intro _
          rw [if_neg hid]
        · intro h
          exact absurd h hid

theorem C6_update_frame_witness :
    (edit_med ⟨[⟨1, "Aspirin", "100mg", "Morning", "", "2026-01-01T08:00:00"⟩],
        [⟨1, 1, "2026-01-01T09:00:00"⟩], 2, 2⟩ 1
        ⟨some " Aspirin Forte ", some "200mg", some "Noon", some "after food"⟩).1.logs =
      [⟨1, 1, "2026-01-01T09:00:00"⟩] :=
  (C6_update_frame ⟨[⟨1, "Aspirin", "100mg", "Morning", "", "2026-01-01T08:00:00"⟩],
      [⟨1, 1, "2026-01-01T09:00:00"⟩], 2, 2⟩ 1
      ⟨some " Aspirin Forte ", some "200mg", some "Noon", some "after food"⟩ (by decide)).1

/-! ### The non-empty-fields invariant -/

/-- Name, dose and schedule each non-empty after trimming surrounding
whitespace. -/
def MedFieldsFilled (m : Medication) : Prop :=
  pyStrip m.name ≠ "" ∧ pyStrip m.dose ≠ "" ∧ pyStrip m.schedule ≠ ""

/-- Every medication in the store satisfies `MedFieldsFilled`. -/
def StoreFieldsFilled (st : Store) : Prop :=
  ∀ m ∈ st.meds, MedFieldsFilled m

instance (st : Store) : Decidable (StoreFieldsFilled st) :=
  inferInstanceAs (Decidable (∀ m ∈ st.meds, _ ∧ _ ∧ _))

theorem validate_true_nonempty {n d s : String}
    (h : (validate_med_form n d s).1 = true) : n ≠ "" ∧ d ≠ "" ∧ s ≠ "" := by
  by_cases h1 : n = "" ∨ d = "" ∨ s = ""
  · unfold validate_med_form at h
    rw [if_pos h1] at h
    simp at h
  · push_neg at h1
    exact h1

theorem formField_strip_ne {o : Option String} (h : formField o ≠ "") :
    pyStrip (formField o) ≠ "" := by
  unfold formField at *
  rw [pyStrip_idem]
  exact h

theorem applyForm_filled {form : MedForm} {m : Medication}
    (h : (validate_med_form (formField form.name) (formField form.dose)
      (formField form.schedule)).1 = true) :
    MedFieldsFilled (applyForm form m) := by
  obtain ⟨h1, h2, h3⟩ := validate_true_nonempty h
  exact ⟨formField_strip_ne h1, formField_strip_ne h2, formField_strip_ne h3⟩

/-- Claim C8: every medication in the store has name, dose and schedule
non-empty after trimming, and each of the four operations preserves this
invariant. -/
theorem C8_nonempty_invariant (st : Store) (form : MedForm) (now : String) (med_id : Nat)
    (hinv : StoreFieldsFilled st) :
    StoreFieldsFilled (add_med st form now).1 ∧
    StoreFieldsFilled (edit_med st med_id form).1 ∧
    StoreFieldsFilled (delete_med st med_id).1 ∧
    StoreFieldsFilled (mark_taken st med_id now).1 := by
  refine ⟨?_, ?_, ?_, ?_⟩
  · unfold add_med
    rcases hv : validate_med_form (formField form.name) (formField form.dose)
        (formField form.schedule) with ⟨b1, m1⟩
    cases b1
    · exact hinv
    · intro m hm
      rcases List.mem_append.mp hm with hold | hnew
      · exact hinv m hold
      · have hmeq : m = ⟨st.nextMedId, formField form.name, formField form.dose,
            formField form.schedule, formField form.notes, now⟩ := by simpa using hnew
        have ht : (validate_med_form (formField form.name) (formField form.dose)
            (formField form.schedule)).1 = true := by rw [hv]
        obtain ⟨h1, h2, h3⟩ := validate_true_nonempty ht
        rw [hmeq]
        exact ⟨formField_strip_ne h1, formField_strip_ne h2, formField_strip_ne h3⟩
  · unfold edit_med
    cases hf : st.meds.find? (fun m => m.id = med_id) with
    | none => exact hinv
    | some val =>
      rcases hv : validate_med_form (formField form.name) (formField form.dose)
          (formField form.schedule) with ⟨b1, m1⟩
      cases b1
      · exact hinv
      · intro m hm
        obtain ⟨m0, hm0, hmap⟩ := List.mem_map.mp hm
        have ht : (validate_med_form (formField form.name) (formField form.dose)
            (formField form.schedule)).1 = true := by rw [hv]
        by_cases hid : m0.id = med_id
        · rw [if_pos hid] at hmap
          exact hmap ▸ applyForm_filled ht
        · rw [if_neg hid] at hmap
          exact hmap ▸ hinv m0 hm0
  · intro m hm
    exact hinv m (List.mem_filter.mp hm).1
  · unfold mark_taken
    cases hf : st.meds.find? (fun m => m.id = med_id) with
    | none => exact hinv
    | some val => exact hinv

theorem C8_nonempty_invariant_witness :
    StoreFieldsFilled (add_med ⟨[], [], 1, 1⟩
      ⟨some "Aspirin", some "100mg", some "Morning", some ""⟩ "2026-01-01T08:00:00").1 :=
  (C8_nonempty_invariant ⟨[], [], 1, 1⟩
    ⟨some "Aspirin", some "100mg", some "Morning", some ""⟩ "2026-01-01T08:00:00" 5
    (by decide)).1

/-- Claim C1: validation applies the four rules in order with first
failure winning — each of the four distinct messages is returned exactly
when its rule is the first to fail, and validation succeeds exactly when
all four pass — and a validation failure in either the add or the edit
handler performs no mutation. -/
theorem C1_validation_first_failure (st : Store) (form : MedForm) (now : String) (med_id : Nat)
    (name dose schedule : String) :
    (validate_med_form name dose schedule = (false, "Please fill in Name, Dose, and Schedule.") ↔
      (name = "" ∨ dose = "" ∨ schedule = "")) ∧
    (validate_med_form name dose schedule =
        (false, "Medication name is too long (max 60 chars).") ↔
      (¬(name = "" ∨ dose = "" ∨ schedule = "") ∧ name.length > 60)) ∧
    (validate_med_form name dose schedule = (false, "Dose is too long (max 60 chars).") ↔
      (¬(name = "" ∨ dose = "" ∨ schedule = "") ∧ ¬name.length > 60 ∧ dose.length > 60)) ∧
    (validate_med_form name dose schedule = (false, "Schedule is too long (max 40 chars).") ↔
      (¬(name = "" ∨ dose = "" ∨ schedule = "") ∧ ¬name.length > 60 ∧ ¬dose.length > 60 ∧
        schedule.length > 40)) ∧
    ((validate_med_form name dose schedule).1 = true ↔
      (¬(name = "" ∨ dose = "" ∨ schedule = "") ∧ ¬name.length > 60 ∧ ¬dose.length > 60 ∧
        ¬schedule.length > 40)) ∧
    (∀ msg, (add_med st form now).2 = AddResult.validationError msg →
      (add_med st form now).1 = st) ∧
    (∀ msg, (edit_med st med_id form).2 = EditResult.validationError msg →
      (edit_med st med_id form).1 = st) := by
  have d12 : ("Please fill in Name, Dose, and Schedule." : String) ≠
      "Medication name is too long (max 60 chars)." := by decide
  have d13 : ("Please fill in Name, Dose, and Schedule." : String) ≠
      "Dose is too long (max 60 chars)." := by decide
  have d14 : ("Please fill in Name, Dose, and Schedule." : String) ≠
      "Schedule is too long (max 40 chars)." := by decide
  have d23 : ("Medication name is too long (max 60 chars)." : String) ≠
      "Dose is too long (max 60 chars)." := by decide
  have d24 : ("Medication name is too long (max 60 chars)." : String) ≠
      "Schedule is too long (max 40 chars)." := by decide
  have d34 : ("Dose is too long (max 60 chars)." : String) ≠
      "Schedule is too long (max 40 chars)." := by decide
  refine ⟨?_, ?_, ?_, ?_, ?_, fun msg h => add_med_fail_unchanged h,
    fun msg h => edit_med_fail_unchanged h⟩ <;>
    (unfold validate_med_form; split_ifs with h1 h2 h3 h4 <;> simp_all)

theorem C1_validation_first_failure_witness :
    validate_med_form "" "a" "b" = (false, "Please fill in Name, Dose, and Schedule.") ∧
    (add_med ⟨[], [], 1, 1⟩ ⟨some "", some "a", some "b", none⟩ "2026-01-01T08:00:00").1 =
      ⟨[], [], 1, 1⟩ :=
  ⟨(C1_validation_first_failure ⟨[], [], 1, 1⟩ ⟨some "", some "a", some "b", none⟩
      "2026-01-01T08:00:00" 0 "" "a" "b").1.mpr (by decide),
   (C1_validation_first_failure ⟨[], [], 1, 1⟩ ⟨some "", some "a", some "b", none⟩
      "2026-01-01T08:00:00" 0 "" "a" "b").2.2.2.2.2.1
      "Please fill in Name, Dose, and Schedule." (by decide)⟩

/-- Claim C4: listAll returns the full set of stored medications (a
permutation of the meds table), ordered by schedule ascending with ties
broken by name ascending, and the derived last_taken of each row is the most
recent taken_at among the events of that medication, or empty when it has
none. -/
theorem C4_listAll (st : Store) :
    ((index st).map Prod.fst).Perm st.meds ∧
    (index st).Pairwise (fun p q =>
      textLt p.1.schedule q.1.schedule ∨
        (p.1.schedule = q.1.schedule ∧ textLe p.1.name q.1.name)) ∧
    ∀ p ∈ index st,
      (p.2 = none ↔ ∀ e ∈ st.logs, e.med_id ≠ p.1.id) ∧
      ∀ t, p.2 = some t →
        (∃ e ∈ st.logs, e.med_id = p.1.id ∧ e.taken_at = t) ∧
        ∀ e ∈ st.logs, e.med_id = p.1.id → textLe e.taken_at t := by
  refine ⟨?_, ?_, ?_⟩
  · unfold index
    rw [List.map_map]
    have hcomp : (Prod.fst ∘ fun m : Medication => (m, last_taken_of st m.id)) = id := rfl
    rw [hcomp, List.map_id]
    exact List.perm_insertionSort medOrd st.meds
  · unfold index
    rw [List.pairwise_map]
    exact List.sorted_insertionSort medOrd st.meds
  · intro p hp
    unfold index at hp
    obtain ⟨q, hq, hpq⟩ := List.mem_map.mp hp
    cases hpq
    constructor
    · show last_taken_of st q.id = none ↔ _
      unfold last_taken_of
      rw [maxText_eq_none_iff, List.map_eq_nil_iff, List.filter_eq_nil_iff]
      constructor
      · intro hnone e he hid
        exact absurd (by simpa using hid) (hnone e he)
      · intro hnone e he
        simpa using hnone e he
    · intro t ht
      have ht' : maxText ((st.logs.filter fun e => e.med_id = q.id).map
          fun e => e.taken_at) = some t := ht
      constructor
      · obtain ⟨e, he, het⟩ := List.mem_map.mp (maxText_mem ht')
        have hef := List.mem_filter.mp he
        exact ⟨e, hef.1, by simpa using hef.2, het⟩
      · intro e he hid
        refine maxText_ge ht' ?_
        exact List.mem_map.mpr ⟨e, List.mem_filter.mpr ⟨he, by simpa using hid⟩, rfl⟩

theorem C4_listAll_witness :
    ∀ p ∈ index ⟨[⟨1, "Aspirin", "100mg", "Morning", "", "2026-01-01T08:00:00"⟩],
        [⟨1, 1, "2026-01-01T09:00:00"⟩, ⟨2, 1, "2026-01-02T09:00:00"⟩], 2, 3⟩,
      p.2 = none ↔ ∀ e ∈ ([⟨1, 1, "2026-01-01T09:00:00"⟩,
        ⟨2, 1, "2026-01-02T09:00:00"⟩] : List TakenEvent), e.med_id ≠ p.1.id :=
  fun p hp =>
    ((C4_listAll ⟨[⟨1, "Aspirin", "100mg", "Morning", "", "2026-01-01T08:00:00"⟩],
      [⟨1, 1, "2026-01-01T09:00:00"⟩, ⟨2, 1, "2026-01-02T09:00:00"⟩], 2, 3⟩).2.2 p hp).1

theorem history_eq_today {st : Store} {rawDay : Option String} {today : String}
    (h : pyLower (pyStrip (rawDay.getD "")) = "today") :
    history st rawDay today = historyToday st today := by
  unfold history
  exact if_pos h

theorem history_eq_all {st : Store} {rawDay : Option String} {today : String}
    (h : pyLower (pyStrip (rawDay.getD "")) ≠ "today") :
    history st rawDay today = historyAll st := by
  unfold history
  exact if_neg h

/-- Claim C5: history returns at most 250 rows ordered by taken_at
descending; under the today filter only events of the current local
calendar date are returned; any parameter not normalizing to "today"
behaves exactly as the all filter. -/
theorem C5_history_filters (st : Store) (rawDay : Option String) (today : String) :
    (history st rawDay today).length ≤ 250 ∧
    (history st rawDay today).Pairwise (fun p q => textLe q.1.taken_at p.1.taken_at) ∧
    (pyLower (pyStrip (rawDay.getD "")) = "today" →
      ∀ p ∈ history st rawDay today, dateOf p.1.taken_at = today) ∧
    (pyLower (pyStrip (rawDay.getD "")) ≠ "today" →
      history st rawDay today = history st (some "all") today) := by
  refine ⟨?_, ?_, ?_, ?_⟩
  · by_cases h : pyLower (pyStrip (rawDay.getD "")) = "today"
    · rw [history_eq_today h]
      unfold historyToday
      rw [List.length_take]
      exact min_le_left _ _
    · rw [history_eq_all h]
      unfold historyAll
      rw [List.length_take]
      exact min_le_left _ _
  · by_cases h : pyLower (pyStrip (rawDay.getD "")) = "today"
    · rw [history_eq_today h]
      unfold historyToday
      exact List.Pairwise.sublist (List.take_sublist _ _)
        (List.sorted_insertionSort logOrd _)
    · rw [history_eq_all h]
      unfold historyAll
      exact List.Pairwise.sublist (List.take_sublist _ _)
        (List.sorted_insertionSort logOrd _)
  · intro h p hp
    rw [history_eq_today h] at hp
    exact (mem_historyToday hp).2
  · intro h
    rw [history_eq_all h, history_eq_all (by decide)]

theorem C5_history_filters_witness :
    ∀ p ∈ history ⟨[⟨1, "Aspirin", "100mg", "Morning", "", "2026-01-01T08:00:00"⟩],
        [⟨1, 1, "2026-01-01T09:00:00"⟩, ⟨2, 1, "2026-01-02T09:00:00"⟩], 2, 3⟩
        (some "today") "2026-01-02",
      dateOf p.1.taken_at = "2026-01-02" :=
  (C5_history_filters ⟨[⟨1, "Aspirin", "100mg", "Morning", "", "2026-01-01T08:00:00"⟩],
    [⟨1, 1, "2026-01-01T09:00:00"⟩, ⟨2, 1, "2026-01-02T09:00:00"⟩], 2, 3⟩
    (some "today") "2026-01-02").2.2.1 (by decide)

/-- Claim C10: the day parameter is normalized by strip-then-lowercase;
a request selects the today branch exactly when the normalization equals
"today" — so "TODAY", "Today" and " today " select it, while values
normalizing to anything else (and a missing parameter) take the all
branch. -/
theorem C10_day_normalization (st : Store) (today : String) (raw : Option String) :
    (pyLower (pyStrip (raw.getD "")) = "today" →
      history st raw today = historyToday st today) ∧
    (pyLower (pyStrip (raw.getD "")) ≠ "today" →
      history st raw today = historyAll st) ∧
    history st (some "TODAY") today = historyToday st today ∧
    history st (some "Today") today = historyToday st today ∧
    history st (some " today ") today = historyToday st today ∧
    history st (some "tomorrow") today = historyAll st ∧
    history st none today = historyAll st := by
  refine ⟨?_, ?_, ?_, ?_, ?_, ?_, ?_⟩
  · intro h
    unfold history
    rw [if_pos h]
  · intro h
    unfold history
    rw [if_neg h]
  · unfold history
    rw [if_pos (by decide)]
  · unfold history
    rw [if_pos (by decide)]
  · unfold history
    rw [if_pos (by decide)]
  · unfold history
    rw [if_neg (by decide)]
  · unfold history
    rw [if_neg (by decide)]

theorem C10_day_normalization_witness :
    history ⟨[⟨1, "Aspirin", "100mg", "Morning", "", "2026-01-01T08:00:00"⟩],
        [⟨1, 1, "2026-01-01T09:00:00"⟩], 2, 2⟩ (some " ToDaY ") "2026-01-01" =
      historyToday ⟨[⟨1, "Aspirin", "100mg", "Morning", "", "2026-01-01T08:00:00"⟩],
        [⟨1, 1, "2026-01-01T09:00:00"⟩], 2, 2⟩ "2026-01-01" :=
  (C10_day_normalization ⟨[⟨1, "Aspirin", "100mg", "Morning", "", "2026-01-01T08:00:00"⟩],
    [⟨1, 1, "2026-01-01T09:00:00"⟩], 2, 2⟩ "2026-01-01" (some " ToDaY ")).1 (by decide)
